import Mathlib

/-!
Shallow embedding of the scene-serialization and debug-draw layer of the
Box2D testbed repository (files `Testbed/Tests/SVQA/SceneState.h`,
`JSONHelper.h`, `Testbed/Framework/SimulationRenderer.cpp`).

Conventions of the embedding:
* `nlohmann::json` values are modelled by the inductive `Json`; a
  default-constructed `json` is `Json.null`.
* The file system is modelled by `FileSys`: `readable p` is `none` when the
  path cannot be opened for reading, `some none` when it opens but its text
  does not parse as JSON, and `some (some j)` when it parses to `j`;
  `writable p` says whether an `std::ofstream` on `p` opens.
* `operator>>` of nlohmann throws `json::parse_error` on malformed input
  (it never returns normally in that case); a thrown exception is modelled
  by an explicit `exn` constructor of the result type.
* `float32` scalars are idealized as rationals; the values
  `sinf(2*pi/16)` and `cosf(2*pi/16)` that the circle routines precompute
  once before their loops are passed in as the parameters `sinInc`,
  `cosInc` (the claims proved below hold for every value of these).
-/

namespace Box2D

/-- Model of an `nlohmann::json` value. -/
inductive Json where
  | null : Json
  | boolean : Bool → Json
  | num : ℚ → Json
  | str : String → Json
  | arr : List Json → Json

/-- Model of `json::push_back`: on `null` the value first becomes an empty
array and the element is appended; on an array the element is appended; on
any other kind nlohmann throws `type_error.308`, modelled by `none`. -/
def Json.push_back : Json → Json → Option Json
  | .null, v => some (.arr [v])
  | .arr es, v => some (.arr (es ++ [v]))
  | _, _ => none

/-- Model of iterating `j.items()`: a `null` value iterates as an empty
range, an array yields its elements in order keyed by their indices, and
any other (primitive) value yields itself once with an empty key. -/
def Json.items : Json → List (String × Json)
  | .null => []
  | .arr es => es.enum.map (fun p => (toString p.1, p.2))
  | j => [("", j)]

/-- Modelled from the spec: `b2VisWorld` (the engine world the snapshots
are reconstructed into) is not among the sources; this layer only passes
the pointer through, so the world is modelled as an opaque token. -/
structure World where
  id : Nat

/-- Modelled from the spec: `ObjectState.h` is not among the sources. The
spec treats an object state as an opaque record that is round-tripped
through JSON (one record per array element, fields preserved), so it is
modelled as a wrapper around its JSON record. -/
structure ObjectState where
  record : Json

/-- Modelled from the spec: `ObjectState::to_json` writes the record of the
object into the given JSON value. -/
def ObjectState.to_json (o : ObjectState) : Json := o.record

/-- Modelled from the spec: `ObjectState::from_json` reconstructs an object
state from a JSON record (the world pointer is used only to rebuild
engine-side resources, which are outside this layer). -/
def ObjectState.from_json (j : Json) (_w : World) : ObjectState := ⟨j⟩

/-- The file system visible to `JSONHelper`. -/
structure FileSys where
  readable : String → Option (Option Json)
  writable : String → Bool

/-- Result of `JSONHelper::loadJSON`: `fail` is a normal return of `false`
(the path could not be opened), `ok j` is a normal return of `true` with
the document populated, and `exn` records that `operator>>` threw
`json::parse_error` so the function did not return at all. -/
inductive LoadResult where
  | fail : LoadResult
  | ok : Json → LoadResult
  | exn : LoadResult

namespace JSONHelper

/-- Embedding of `JSONHelper::loadJSON`: open the path; if it cannot be
opened return `false`; otherwise run `i >> j`, which either populates `j`
(return `true`) or throws a parse exception. -/
def loadJSON (fs : FileSys) (filePath : String) : LoadResult :=
  match fs.readable filePath with
  | none => .fail
  | some none => .exn
  | some (some j) => .ok j

/-- Embedding of `JSONHelper::saveJSON`: open the path for writing
(truncating); if that fails return `false`; otherwise serialize the whole
document (reading the written text back parses to the same document) and
return `true`. -/
def saveJSON (j : Json) (fs : FileSys) (filePath : String) : Bool × FileSys :=
  if fs.writable filePath then
    (true,
      { readable := fun p => if p = filePath then some (some j) else fs.readable p
        writable := fs.writable })
  else (false, fs)

end JSONHelper

/-- Embedding of `struct SceneState`: the ordered list of object
snapshots. -/
structure SceneState where
  objects : List ObjectState

/-- Embedding of `SceneState::add`. -/
def SceneState.add (s : SceneState) (objState : ObjectState) : SceneState :=
  ⟨s.objects ++ [objState]⟩

/-- Embedding of `SceneState::clear`. -/
def SceneState.clear (_s : SceneState) : SceneState := ⟨[]⟩

/-- Embedding of `SceneState::toJSON`: start from a default-constructed
(`null`) value and `push_back` the record of each object in list order.
`push_back` can throw on a non-array accumulator, hence the `Option`; the
accumulator here is always `null` or an array, so the result is always
`some`. -/
def SceneState.toJSON (s : SceneState) : Option Json :=
  s.objects.foldlM (fun jScene o => Json.push_back jScene o.to_json) Json.null

/-- Result of `SceneState::loadFromJSONFile`: either a normal return with
the boolean result and the state after the call, or a propagated parse
exception with the state at the point of the throw. -/
inductive SceneLoadResult where
  | ret : Bool → SceneState → SceneLoadResult
  | exn : SceneState → SceneLoadResult

/-- Embedding of `SceneState::loadFromJSONFile`: with a null world return
`false` at once; otherwise call `JSONHelper::loadJSON` and, only if it
returned `true`, clear the list and append one reconstructed object per
`items()` element; a parse exception propagates before `clear` runs. -/
def SceneState.loadFromJSONFile (s : SceneState) (fromFile : String)
    (toWorld : Option World) (fs : FileSys) : SceneLoadResult :=
  match toWorld with
  | some w =>
    match JSONHelper.loadJSON fs fromFile with
    | .ok j =>
      let cleared := s.clear
      let final := j.items.foldl
        (fun acc kv =>
          let oState := ObjectState.from_json kv.2 w
          acc.add oState)
        cleared
      .ret true final
    | .fail => .ret false s
    | .exn => .exn s
  | none => .ret false s

/-- Embedding of `SceneState::saveToJSONFile`: with a null world return
`false`; otherwise serialize via `toJSON` (`none` would be a propagated
`type_error`, which never happens) and write with `JSONHelper::saveJSON`. -/
def SceneState.saveToJSONFile (s : SceneState) (fromWorld : Option World)
    (toFile : String) (fs : FileSys) : Option (Bool × FileSys) :=
  match fromWorld with
  | some _ => s.toJSON.map (fun j => JSONHelper.saveJSON j fs toFile)
  | none => some (false, fs)

/-- Embedding of `b2Vec2` with idealized scalars. -/
structure Vec2 where
  x : ℚ
  y : ℚ
deriving DecidableEq

/-- Componentwise vector addition (`b2Vec2::operator+`). -/
def vadd (u v : Vec2) : Vec2 := ⟨u.x + v.x, u.y + v.y⟩

/-- Scalar multiplication (`operator*(float32, b2Vec2)`). -/
def vsmul (s : ℚ) (v : Vec2) : Vec2 := ⟨s * v.x, s * v.y⟩

/-- Embedding of `b2Color` with idealized scalars. -/
structure Color where
  r : ℚ
  g : ℚ
  b : ℚ
  a : ℚ
deriving DecidableEq

/-- One entry appended to the line or triangle batch by a `Vertex` call:
the position and the color passed to the call. -/
abbrev BatchEntry := Vec2 × Color

/-- Embedding of one GL batch (`GLRenderPoints` / `GLRenderLines` /
`GLRenderTriangles` share this logic): a fixed capacity `cap`
(`e_maxVertices`), the buffered entries `buf` (the occupied prefix of the
`m_vertices` and `m_colors` arrays, `m_count = buf.length`), and the list
of draw calls issued so far (each `Flush` that uploads data appends one). -/
structure Batch (E : Type) where
  cap : Nat
  buf : List E
  drawCalls : List (List E)
deriving DecidableEq

/-- Embedding of `Flush`: a no-op when the buffer is empty; otherwise
upload the buffered entries, issue one draw call covering them, and reset
the count to zero. -/
def Batch.Flush {E : Type} (batch : Batch E) : Batch E :=
  if batch.buf.length = 0 then batch
  else { batch with buf := [], drawCalls := batch.drawCalls ++ [batch.buf] }

/-- Embedding of `Vertex`: if the count has reached `e_maxVertices`, flush
first; then store the entry at index `m_count` and increment the count
(appending to the buffer of the possibly-flushed batch). -/
def Batch.Vertex {E : Type} (batch : Batch E) (e : E) : Batch E :=
  if batch.buf.length = batch.cap then
    { batch.Flush with buf := batch.Flush.buf ++ [e] }
  else
    { batch with buf := batch.buf ++ [e] }

/-- `GLRenderPoints::e_maxVertices`. -/
def pointsMaxVertices : Nat := 512

/-- `GLRenderLines::e_maxVertices`. -/
def linesMaxVertices : Nat := 2 * 512

/-- `GLRenderTriangles::e_maxVertices`. -/
def trianglesMaxVertices : Nat := 3 * 512

/-- Total model of reading `vertices[i]` from an array of `vs.length`
elements with a signed index: out of bounds yields `none`. -/
def readVec (vs : List Vec2) (i : Int) : Option Vec2 :=
  if i < 0 then none else vs.get? i.toNat

/-- Embedding of the loop of `SimulationRenderer::DrawPolygon` (also
repeated verbatim in the debug branch of `DrawSolidPolygon`): for
`i` from the given index up to `vertexCount`, read `p2 = vertices[i]`,
emit the two line-batch entries `(p1, color)` and `(p2, color)`, and
continue with `p1 = p2`. Returns the list of emitted entries, or `none`
if an access is out of bounds. -/
def drawPolygonLoop (vs : List Vec2) (color : Color) (i : Nat) (p1 : Vec2) :
    Option (List BatchEntry) :=
  if h : i < vs.length then
    match readVec vs (i : Int) with
    | none => none
    | some p2 =>
      (drawPolygonLoop vs color (i + 1) p2).map
        (fun rest => (p1, color) :: (p2, color) :: rest)
  else some []
termination_by vs.length - i
decreasing_by omega

/-- Embedding of `SimulationRenderer::DrawPolygon`: first read
`p1 = vertices[vertexCount - 1]` (signed index), then run the loop from
`i = 0`. -/
def DrawPolygon (vs : List Vec2) (color : Color) : Option (List BatchEntry) :=
  match readVec vs ((vs.length : Int) - 1) with
  | none => none
  | some p1 => drawPolygonLoop vs color 0 p1

/-- Embedding of the fan-triangulation loop of
`SimulationRenderer::DrawSolidPolygon`: for `i` from the given index while
`i < vertexCount - 1`, emit the three triangle-batch entries
`(vertices[0], fillColor)`, `(vertices[i], fillColor)`,
`(vertices[i+1], fillColor)`. -/
def fanTriLoop (vs : List Vec2) (fillColor : Color) (i : Nat) :
    Option (List BatchEntry) :=
  if h : i < vs.length - 1 then
    match readVec vs 0, readVec vs (i : Int), readVec vs ((i : Int) + 1) with
    | some v0, some vi, some vj =>
      (fanTriLoop vs fillColor (i + 1)).map
        (fun rest => (v0, fillColor) :: (vi, fillColor) :: (vj, fillColor) :: rest)
    | _, _, _ => none
  else some []
termination_by vs.length - i
decreasing_by omega

/-- Embedding of `SimulationRenderer::DrawSolidPolygon` (the untextured
path that is compiled when `RENDER_TEXTURES` is off): `transConst` is
`0.5` in debug mode and `1.0` otherwise; the fill color is
`(transConst * r, transConst * g, transConst * b, transConst)`; the fan
loop runs from `i = 1`; in debug mode the wireframe outline loop of
`DrawPolygon` is additionally run with the original color. Returns the
pair (triangle-batch entries, line-batch entries). The fill color
`(transConst * r, transConst * g, transConst * b, transConst)` with
`transConst = debugMode ? 0.5 : 1.0` is factored out as
`polygonFillColor`. -/
def polygonFillColor (debugMode : Bool) (color : Color) : Color :=
  let transConst : ℚ := if debugMode then 1/2 else 1
  ⟨transConst * color.r, transConst * color.g, transConst * color.b, transConst⟩

/-- Embedding of the body of `SimulationRenderer::DrawSolidPolygon`, see
`polygonFillColor` for the fill color. -/
def DrawSolidPolygon (debugMode : Bool) (vs : List Vec2) (color : Color) :
    Option (List BatchEntry × List BatchEntry) :=
  match fanTriLoop vs (polygonFillColor debugMode color) 1 with
  | none => none
  | some tris =>
    if debugMode then
      match readVec vs ((vs.length : Int) - 1) with
      | none => none
      | some p1 =>
        (drawPolygonLoop vs color 0 p1).map (fun lines => (tris, lines))
    else some (tris, [])

/-- Embedding of the 16-iteration segment loop shared by
`SimulationRenderer::DrawCircle` and the debug outline of
`DrawSolidCircle`: each iteration rotates `r1` by the fixed increment
using the precomputed `sinInc`/`cosInc`, computes
`v2 = center + radius * r2`, and emits the two line-batch entries
`(v1, color)` and `(v2, color)`. -/
def circleSegLoop (center : Vec2) (radius : ℚ) (color : Color)
    (sinInc cosInc : ℚ) : Nat → Vec2 → Vec2 → List BatchEntry
  | 0, _, _ => []
  | n + 1, r1, v1 =>
    let r2 : Vec2 := ⟨cosInc * r1.x - sinInc * r1.y, sinInc * r1.x + cosInc * r1.y⟩
    let v2 := vadd center (vsmul radius r2)
    (v1, color) :: (v2, color) ::
      circleSegLoop center radius color sinInc cosInc n r2 v2

/-- Embedding of `SimulationRenderer::DrawCircle`: `k_segments = 16`,
`r1 = (1, 0)`, `v1 = center + radius * r1`, then the segment loop. -/
def DrawCircle (center : Vec2) (radius : ℚ) (color : Color)
    (sinInc cosInc : ℚ) : List BatchEntry :=
  let r1 : Vec2 := ⟨1, 0⟩
  let v1 := vadd center (vsmul radius r1)
  circleSegLoop center radius color sinInc cosInc 16 r1 v1

/-- Embedding of the 16-iteration triangle-fan loop of
`SimulationRenderer::DrawSolidCircle`: each iteration rotates `r1`,
computes `v2`, and emits the three triangle-batch entries
`(v0, fillColor)`, `(v1, fillColor)`, `(v2, fillColor)` with
`v0 = center`. -/
def circleTriLoop (center : Vec2) (radius : ℚ) (fillColor : Color)
    (sinInc cosInc : ℚ) : Nat → Vec2 → Vec2 → List BatchEntry
  | 0, _, _ => []
  | n + 1, r1, v1 =>
    let r2 : Vec2 := ⟨cosInc * r1.x - sinInc * r1.y, sinInc * r1.x + cosInc * r1.y⟩
    let v2 := vadd center (vsmul radius r2)
    (center, fillColor) :: (v1, fillColor) :: (v2, fillColor) ::
      circleTriLoop center radius fillColor sinInc cosInc n r2 v2

/-- Embedding of `SimulationRenderer::DrawSolidCircle` (the untextured
path): the fill color is unconditionally
`(0.5 * r, 0.5 * g, 0.5 * b, 0.5)`; the fan starts from
`r1 = (cosInc, sinInc)`; only in debug mode the 16-segment outline
(restarted from `r1 = (1, 0)`) and the radius line from `center` to
`center + radius * axis` are emitted to the line batch. Returns the pair
(triangle-batch entries, line-batch entries). -/
def DrawSolidCircle (debugMode : Bool) (center : Vec2) (radius : ℚ)
    (axis : Vec2) (color : Color) (sinInc cosInc : ℚ) :
    List BatchEntry × List BatchEntry :=
  let fillColor : Color := ⟨1/2 * color.r, 1/2 * color.g, 1/2 * color.b, 1/2⟩
  let r1 : Vec2 := ⟨cosInc, sinInc⟩
  let v1 := vadd center (vsmul radius r1)
  let tris := circleTriLoop center radius fillColor sinInc cosInc 16 r1 v1
  let lines :=
    if debugMode then
      let r1Dbg : Vec2 := ⟨1, 0⟩
      let v1Dbg := vadd center (vsmul radius r1Dbg)
      let outline := circleSegLoop center radius color sinInc cosInc 16 r1Dbg v1Dbg
      let p := vadd center (vsmul radius axis)
      outline ++ [(center, color), (p, color)]
    else []
  (tris, lines)

/-- Specification-side helper for the proofs: the trace of line-batch
entries produced by the polygon loop once `p1` is initialized, folded
over the list of remaining vertices. -/
def polygonTrace (color : Color) : Vec2 → List Vec2 → List BatchEntry
  | _, [] => []
  | p1, p2 :: rest => (p1, color) :: (p2, color) :: polygonTrace color p2 rest

/-- Specification-side helper for the proofs: the trace of triangle-batch
entries produced by the fan loop, with apex `v0`, current vertex `vi` and
the list of remaining vertices. -/
def fanTrace (fillColor : Color) (v0 : Vec2) : Vec2 → List Vec2 → List BatchEntry
  | _, [] => []
  | vi, vj :: rest =>
    (v0, fillColor) :: (vi, fillColor) :: (vj, fillColor) ::
      fanTrace fillColor v0 vj rest

/-- Specification-side helper: the fan trace starting at the suffix of the
vertex list that the loop index points to. -/
def fanTraceFrom (fillColor : Color) (v0 : Vec2) : List Vec2 → List BatchEntry
  | [] => []
  | vi :: rest => fanTrace fillColor v0 vi rest

/-! Lemmas about the scene-serialization layer. -/

theorem foldlM_push_arr (objs : List ObjectState) (es : List Json) :
    (objs.foldlM (fun jScene o => Json.push_back jScene o.to_json) (Json.arr es))
      = some (Json.arr (es ++ objs.map ObjectState.to_json)) := by
  induction objs generalizing es with
  | nil => simp
  | cons o rest ih =>
    rw [List.foldlM_cons]
    have h₁ : Json.push_back (Json.arr es) o.to_json
        = some (Json.arr (es ++ [o.to_json])) := rfl
    rw [h₁, Option.bind_eq_bind, Option.some_bind, ih]
    simp

theorem toJSON_nil : SceneState.toJSON ⟨[]⟩ = some Json.null := rfl

theorem toJSON_cons (o : ObjectState) (rest : List ObjectState) :
    SceneState.toJSON ⟨o :: rest⟩
      = some (Json.arr (o.to_json :: rest.map ObjectState.to_json)) := by
  have h₀ : SceneState.toJSON ⟨o :: rest⟩
      = (o :: rest).foldlM (fun jScene o => Json.push_back jScene o.to_json)
          Json.null := rfl
  rw [h₀, List.foldlM_cons]
  have h₁ : Json.push_back Json.null o.to_json
      = some (Json.arr ([] ++ [o.to_json])) := rfl
  rw [h₁, Option.bind_eq_bind, Option.some_bind, foldlM_push_arr]
  simp

theorem items_arr_map_snd (es : List Json) :
    ((Json.arr es).items).map Prod.snd = es := by
  simp only [Json.items, List.map_map]
  exact List.enum_map_snd es

theorem foldl_add_eq (w : World) (kvs : List (String × Json)) (acc : SceneState) :
    (kvs.foldl
      (fun acc kv =>
        let oState := ObjectState.from_json kv.2 w
        acc.add oState) acc)
      = ⟨acc.objects ++ kvs.map (fun kv => ObjectState.from_json kv.2 w)⟩ := by
  induction kvs generalizing acc with
  | nil => simp
  | cons kv rest ih =>
    simp only [List.foldl_cons, List.map_cons]
    rw [ih]
    simp [SceneState.add]

theorem loadFromJSONFile_parsed (s : SceneState) (path : String) (w : World)
    (fs : FileSys) (j : Json) (h : fs.readable path = some (some j)) :
    s.loadFromJSONFile path (some w) fs
      = .ret true ⟨(j.items).map (fun kv => ObjectState.from_json kv.2 w)⟩ := by
  unfold SceneState.loadFromJSONFile JSONHelper.loadJSON
  rw [h]
  simp only
  rw [foldl_add_eq]
  rfl

theorem items_map_from_json (w : World) (es : List Json) :
    (((Json.arr es).items).map (fun kv => ObjectState.from_json kv.2 w))
      = es.map (fun e => (⟨e⟩ : ObjectState)) := by
  have hcomp : (fun kv : String × Json => ObjectState.from_json kv.2 w)
      = (fun e : Json => (⟨e⟩ : ObjectState)) ∘ Prod.snd := rfl
  rw [hcomp, ← List.map_map, items_arr_map_snd]

theorem load_of_toJSON (s : SceneState) (w : World) (j : Json)
    (hj : s.toJSON = some j) :
    (j.items).map (fun kv => ObjectState.from_json kv.2 w) = s.objects := by
  obtain ⟨objs⟩ := s
  cases objs with
  | nil =>
    rw [toJSON_nil] at hj
    cases hj
    rfl
  | cons o rest =>
    rw [toJSON_cons] at hj
    cases hj
    rw [items_map_from_json]
    have hid : (fun e : Json => (⟨e⟩ : ObjectState)) ∘ ObjectState.to_json = id := rfl
    rw [show (o.to_json :: rest.map ObjectState.to_json)
        = (o :: rest).map ObjectState.to_json from rfl]
    rw [List.map_map, hid, List.map_id]

/-! Claim theorems for the scene-serialization layer. -/

/-- C1 counterexample: serializing an empty scene state yields `null` as
the document root, not the empty JSON array the claim states. -/
theorem c1_empty_scene_root_not_array :
    SceneState.toJSON ⟨[]⟩ ≠ some (Json.arr []) := by
  intro h
  rw [toJSON_nil] at h
  injection h with h
  exact Json.noConfusion h

/-- C1 (amended): serializing an empty scene state produces JSON `null` as
the document root (a default-constructed nlohmann value that never gets a
`push_back`); saving an empty object list and loading the saved document
back still round-trips to an empty list, because iterating the `null`
document yields no items. -/
theorem c1_empty_scene_null_root_roundtrip (fs : FileSys) (path : String)
    (w w₂ : World) (s₂ : SceneState) (hw : fs.writable path = true) :
    SceneState.toJSON ⟨[]⟩ = some Json.null ∧
    ∃ fs₂, SceneState.saveToJSONFile ⟨[]⟩ (some w) path fs = some (true, fs₂) ∧
      SceneState.loadFromJSONFile s₂ path (some w₂) fs₂ = .ret true ⟨[]⟩ := by
  refine ⟨rfl, ?_⟩
  have hs : SceneState.saveToJSONFile ⟨[]⟩ (some w) path fs
      = (SceneState.toJSON ⟨[]⟩).map (fun j => JSONHelper.saveJSON j fs path) := rfl
  have hsave : JSONHelper.saveJSON Json.null fs path
      = (true, ⟨fun p => if p = path then some (some Json.null) else fs.readable p,
          fs.writable⟩) := by
    unfold JSONHelper.saveJSON
    rw [if_pos hw]
  refine ⟨⟨fun p => if p = path then some (some Json.null) else fs.readable p,
      fs.writable⟩, ?_, ?_⟩
  · rw [hs, toJSON_nil, Option.map_some', hsave]
  · rw [loadFromJSONFile_parsed s₂ path w₂ _ Json.null (by simp)]
    rfl

/-- C1 witness: the empty-scene round trip on a concrete writable file
system, starting from a previously-populated state. -/
theorem c1_witness :
    SceneState.toJSON ⟨[]⟩ = some Json.null ∧
    ∃ fs₂,
      SceneState.saveToJSONFile ⟨[]⟩ (some ⟨0⟩) "scene.json"
          ⟨fun _ => none, fun _ => true⟩ = some (true, fs₂) ∧
      SceneState.loadFromJSONFile ⟨[⟨Json.num 5⟩]⟩ "scene.json" (some ⟨1⟩) fs₂
        = .ret true ⟨[]⟩ :=
  c1_empty_scene_null_root_roundtrip ⟨fun _ => none, fun _ => true⟩ "scene.json"
    ⟨0⟩ ⟨1⟩ ⟨[⟨Json.num 5⟩]⟩ rfl

/-- C2 counterexample: on a path that opens but whose content fails to
parse, `loadJSON` does not return `false`; the stream extraction throws a
parse exception instead. -/
theorem c2_parse_failure_not_false :
    JSONHelper.loadJSON
        ⟨fun p => if p = "scene.json" then some none else none, fun _ => false⟩
        "scene.json" ≠ .fail ∧
    JSONHelper.loadJSON
        ⟨fun p => if p = "scene.json" then some none else none, fun _ => false⟩
        "scene.json" = .exn := by
  refine ⟨fun h => ?_, rfl⟩
  have h₂ : LoadResult.exn = LoadResult.fail :=
    (rfl :
      JSONHelper.loadJSON
        ⟨fun p => if p = "scene.json" then some none else none, fun _ => false⟩
        "scene.json" = .exn).symm.trans h
  exact LoadResult.noConfusion h₂

/-- C2 (amended): `loadJSON` returns `false` exactly when the path cannot
be opened; when the file opens but its content fails to parse it does not
return at all (nlohmann `operator>>` throws `parse_error`); it returns
`true` and populates the output document exactly when open and parse both
succeed. -/
theorem c2_loadJSON_outcomes (fs : FileSys) (path : String) :
    (JSONHelper.loadJSON fs path = .fail ↔ fs.readable path = none) ∧
    (JSONHelper.loadJSON fs path = .exn ↔ fs.readable path = some none) ∧
    (∀ j, JSONHelper.loadJSON fs path = .ok j ↔ fs.readable path = some (some j)) := by
  unfold JSONHelper.loadJSON
  rcases h : fs.readable path with _ | j₀
  · simp
  · rcases j₀ with _ | j <;> simp

/-- C2 witness: the three outcomes at concrete file systems. -/
theorem c2_witness :
    JSONHelper.loadJSON ⟨fun _ => none, fun _ => false⟩ "a.json" = .fail ∧
    JSONHelper.loadJSON ⟨fun _ => some none, fun _ => false⟩ "a.json" = .exn ∧
    JSONHelper.loadJSON ⟨fun _ => some (some Json.null), fun _ => false⟩ "a.json"
      = .ok Json.null := by
  refine ⟨?_, ?_, ?_⟩
  · exact (c2_loadJSON_outcomes ⟨fun _ => none, fun _ => false⟩ "a.json").1.mpr rfl
  · exact (c2_loadJSON_outcomes ⟨fun _ => some none, fun _ => false⟩ "a.json").2.1.mpr rfl
  · exact ((c2_loadJSON_outcomes ⟨fun _ => some (some Json.null), fun _ => false⟩
      "a.json").2.2 Json.null).mpr rfl

/-- C4: when the path cannot be opened, `loadFromJSONFile` returns `false`
and the object list is exactly what it was before the call, for every
previous state and every world pointer. -/
theorem c4_load_failure_preserves_state (s : SceneState) (path : String)
    (w : Option World) (fs : FileSys) (h : fs.readable path = none) :
    s.loadFromJSONFile path w fs = .ret false s := by
  unfold SceneState.loadFromJSONFile JSONHelper.loadJSON
  cases w with
  | none => rfl
  | some w => rw [h]

/-- C4 witness: a populated scene state survives a failed load of a
missing file unchanged. -/
theorem c4_witness :
    SceneState.loadFromJSONFile ⟨[⟨Json.num 7⟩, ⟨Json.str "a"⟩]⟩ "missing.json"
        (some ⟨0⟩) ⟨fun _ => none, fun _ => false⟩
      = .ret false ⟨[⟨Json.num 7⟩, ⟨Json.str "a"⟩]⟩ :=
  c4_load_failure_preserves_state ⟨[⟨Json.num 7⟩, ⟨Json.str "a"⟩]⟩ "missing.json"
    (some ⟨0⟩) ⟨fun _ => none, fun _ => false⟩ rfl

/-- C5: saving any scene state to a writable path and loading the saved
document back succeeds and yields exactly the original object list (the
document carries one item per object, in list order, and loading rebuilds
the list from those items in order). -/
theorem c5_save_load_roundtrip (s s₂ : SceneState) (w w₂ : World)
    (fs : FileSys) (path : String) (hw : fs.writable path = true) :
    ∃ fs₂ doc,
      s.saveToJSONFile (some w) path fs = some (true, fs₂) ∧
      fs₂.readable path = some (some doc) ∧
      (doc.items).map Prod.snd = s.objects.map ObjectState.to_json ∧
      s₂.loadFromJSONFile path (some w₂) fs₂ = .ret true s := by
  obtain ⟨objs⟩ := s
  have hj : ∃ j, SceneState.toJSON ⟨objs⟩ = some j := by
    cases objs with
    | nil => exact ⟨Json.null, toJSON_nil⟩
    | cons o rest => exact ⟨_, toJSON_cons o rest⟩
  obtain ⟨j, hj⟩ := hj
  have hs : SceneState.saveToJSONFile ⟨objs⟩ (some w) path fs
      = (SceneState.toJSON ⟨objs⟩).map (fun j => JSONHelper.saveJSON j fs path) := rfl
  have hsave : JSONHelper.saveJSON j fs path
      = (true, ⟨fun p => if p = path then some (some j) else fs.readable p,
          fs.writable⟩) := by
    unfold JSONHelper.saveJSON
    rw [if_pos hw]
  refine ⟨⟨fun p => if p = path then some (some j) else fs.readable p,
      fs.writable⟩, j, ?_, ?_, ?_, ?_⟩
  · rw [hs, hj, Option.map_some', hsave]
  · simp
  · cases objs with
    | nil =>
      rw [toJSON_nil] at hj
      cases hj
      simp [Json.items]
    | cons o rest =>
      rw [toJSON_cons] at hj
      cases hj
      rw [items_arr_map_snd]
      rfl
  · rw [loadFromJSONFile_parsed s₂ path w₂ _ j (by simp)]
    rw [load_of_toJSON ⟨objs⟩ w₂ j hj]

/-- C5 witness: a two-object scene round-trips through a concrete file
system. -/
theorem c5_witness :
    ∃ fs₂ doc,
      SceneState.saveToJSONFile ⟨[⟨Json.num 3⟩, ⟨Json.boolean true⟩]⟩ (some ⟨1⟩)
          "scene.json" ⟨fun _ => none, fun _ => true⟩ = some (true, fs₂) ∧
      fs₂.readable "scene.json" = some (some doc) ∧
      (doc.items).map Prod.snd
        = ([⟨Json.num 3⟩, ⟨Json.boolean true⟩] : List ObjectState).map
            ObjectState.to_json ∧
      SceneState.loadFromJSONFile ⟨[]⟩ "scene.json" (some ⟨2⟩) fs₂
        = .ret true ⟨[⟨Json.num 3⟩, ⟨Json.boolean true⟩]⟩ :=
  c5_save_load_roundtrip ⟨[⟨Json.num 3⟩, ⟨Json.boolean true⟩]⟩ ⟨[]⟩ ⟨1⟩ ⟨2⟩
    ⟨fun _ => none, fun _ => true⟩ "scene.json" rfl

/-! Lemmas about the renderer facade. -/

theorem readVec_eq_get (vs : List Vec2) (k : Nat) (h : k < vs.length) :
    readVec vs (k : Int) = some (vs.get ⟨k, h⟩) := by
  unfold readVec
  rw [if_neg (by omega : ¬ (k : Int) < 0)]
  rw [show ((k : Int).toNat = k) from by omega]
  exact List.get?_eq_get h

theorem drawPolygonLoop_eq (vs : List Vec2) (color : Color) (i : Nat) (p1 : Vec2) :
    drawPolygonLoop vs color i p1 = some (polygonTrace color p1 (vs.drop i)) := by
  rw [drawPolygonLoop]
  by_cases h : i < vs.length
  · rw [dif_pos h, readVec_eq_get vs i h]
    show (drawPolygonLoop vs color (i + 1) (vs.get ⟨i, h⟩)).map
        (fun rest => (p1, color) :: (vs.get ⟨i, h⟩, color) :: rest)
      = some (polygonTrace color p1 (vs.drop i))
    rw [drawPolygonLoop_eq vs color (i + 1) (vs.get ⟨i, h⟩), Option.map_some']
    rw [List.drop_eq_getElem_cons h]
    rfl
  · rw [dif_neg h, List.drop_eq_nil_of_le (by omega)]
    rfl
termination_by vs.length - i
decreasing_by omega

theorem polygonTrace_length (color : Color) (p1 : Vec2) (l : List Vec2) :
    (polygonTrace color p1 l).length = 2 * l.length := by
  induction l generalizing p1 with
  | nil => rfl
  | cons p2 rest ih =>
    simp only [polygonTrace, List.length_cons, ih p2]
    omega

theorem polygonTrace_color (color : Color) (p1 : Vec2) (l : List Vec2) :
    ∀ e ∈ polygonTrace color p1 l, e.2 = color := by
  induction l generalizing p1 with
  | nil => intro e he; cases he
  | cons p2 rest ih =>
    intro e he
    simp only [polygonTrace, List.mem_cons] at he
    rcases he with rfl | rfl | he
    · rfl
    · rfl
    · exact ih p2 e he

theorem polygonTrace_get (color : Color) (p1 : Vec2) (l : List Vec2) (i : Nat)
    (h : i < l.length) :
    (polygonTrace color p1 l).get? (2 * i)
        = ((p1 :: l).get? i).map (fun v => (v, color)) ∧
    (polygonTrace color p1 l).get? (2 * i + 1)
        = (l.get? i).map (fun v => (v, color)) := by
  induction l generalizing p1 i with
  | nil => exact absurd h (by simp)
  | cons p2 rest ih =>
    cases i with
    | zero => exact ⟨rfl, rfl⟩
    | succ n =>
      have hn : n < rest.length := by
        simp only [List.length_cons] at h
        omega
      have e1 : 2 * (n + 1) = 2 * n + 1 + 1 := by ring
      have e2 : 2 * (n + 1) + 1 = 2 * n + 1 + 1 + 1 := by ring
      constructor
      · rw [e1]
        simp only [polygonTrace, List.get?_cons_succ]
        exact (ih p2 n hn).1
      · rw [e2]
        simp only [polygonTrace, List.get?_cons_succ]
        exact (ih p2 n hn).2

/-- C6: for every vertex list with at least three vertices, `DrawPolygon`
emits exactly `N` segments, i.e. `2N` entries into the line batch; the
entry pairs connect consecutive vertices, the loop is closed by the
segment from `vertex[N-1]` to `vertex[0]` (the first emitted pair), and
every emitted entry carries the given color. -/
theorem c6_drawPolygon_closed_loop (vs : List Vec2) (color : Color)
    (h : 3 ≤ vs.length) :
    ∃ tr, DrawPolygon vs color = some tr ∧
      tr.length = 2 * vs.length ∧
      tr.get? 0 = (vs.get? (vs.length - 1)).map (fun v => (v, color)) ∧
      (∀ i, 1 ≤ i → i < vs.length →
        tr.get? (2 * i) = (vs.get? (i - 1)).map (fun v => (v, color))) ∧
      (∀ i, i < vs.length →
        tr.get? (2 * i + 1) = (vs.get? i).map (fun v => (v, color))) ∧
      (∀ e ∈ tr, e.2 = color) := by
  have hlt : vs.length - 1 < vs.length := by omega
  have hlast : readVec vs ((vs.length : Int) - 1)
      = some (vs.get ⟨vs.length - 1, hlt⟩) := by
    rw [show ((vs.length : Int) - 1) = ((vs.length - 1 : Nat) : Int) from by omega]
    exact readVec_eq_get vs (vs.length - 1) hlt
  have hdp : DrawPolygon vs color
      = some (polygonTrace color (vs.get ⟨vs.length - 1, hlt⟩) vs) := by
    unfold DrawPolygon
    rw [hlast]
    show drawPolygonLoop vs color 0 (vs.get ⟨vs.length - 1, hlt⟩) = _
    rw [drawPolygonLoop_eq, List.drop_zero]
  refine ⟨_, hdp, polygonTrace_length _ _ _, ?_, ?_, ?_, polygonTrace_color _ _ _⟩
  · have h0 := (polygonTrace_get color (vs.get ⟨vs.length - 1, hlt⟩) vs 0
      (by omega)).1
    rw [show (2 * 0) = 0 from rfl] at h0
    rw [h0, List.get?_eq_get hlt]
    rfl
  · intro i h1 h2
    rw [(polygonTrace_get color (vs.get ⟨vs.length - 1, hlt⟩) vs i h2).1]
    cases i with
    | zero => omega
    | succ n => rw [List.get?_cons_succ]; rfl
  · intro i h2
    exact (polygonTrace_get color (vs.get ⟨vs.length - 1, hlt⟩) vs i h2).2

/-- C6 witness: a concrete triangle emits six line-batch entries. -/
theorem c6_witness :
    ∃ tr, DrawPolygon [⟨0, 0⟩, ⟨1, 0⟩, ⟨0, 1⟩] ⟨1, 0, 0, 1⟩ = some tr ∧
      tr.length = 6 := by
  obtain ⟨tr, h1, h2, _⟩ :=
    c6_drawPolygon_closed_loop [⟨0, 0⟩, ⟨1, 0⟩, ⟨0, 1⟩] ⟨1, 0, 0, 1⟩ (by simp)
  exact ⟨tr, h1, by rw [h2]; rfl⟩

/-- C10: the first access of `DrawPolygon` reads `vertices[vertexCount-1]`
before the loop, so in the total `Option` embedding the result is `some`
exactly when `vertexCount` is at least one; for the empty list the initial
access is out of bounds and the result is `none`; and whenever the result
is `some`, the emitted trace has exactly `2 * vertexCount` line-batch
entries (`vertexCount` segments), including the degenerate counts one and
two not covered by the `N` at least three contract. -/
theorem c10_drawPolygon_totality (vs : List Vec2) (color : Color) :
    ((DrawPolygon vs color).isSome ↔ 1 ≤ vs.length) ∧
    (vs.length = 0 → DrawPolygon vs color = none) ∧
    (∀ tr, DrawPolygon vs color = some tr → tr.length = 2 * vs.length) := by
  cases vs with
  | nil =>
    have hnone : DrawPolygon [] color = none := by
      unfold DrawPolygon readVec
      rw [if_pos (by norm_num : ((([] : List Vec2).length : Int) - 1) < 0)]
    refine ⟨by rw [hnone]; simp, fun _ => hnone, ?_⟩
    intro tr htr
    rw [hnone] at htr
    cases htr
  | cons v rest =>
    have hone : 1 ≤ (v :: rest).length := by simp
    have hlt : (v :: rest).length - 1 < (v :: rest).length := by omega
    have hlast : readVec (v :: rest) (((v :: rest).length : Int) - 1)
        = some ((v :: rest).get ⟨(v :: rest).length - 1, hlt⟩) := by
      rw [show ((((v :: rest).length : Int)) - 1)
          = (((v :: rest).length - 1 : Nat) : Int) from by omega]
      exact readVec_eq_get _ _ hlt
    have hdp : DrawPolygon (v :: rest) color
        = some (polygonTrace color ((v :: rest).get ⟨(v :: rest).length - 1, hlt⟩)
            (v :: rest)) := by
      unfold DrawPolygon
      rw [hlast]
      show drawPolygonLoop (v :: rest) color 0 _ = _
      rw [drawPolygonLoop_eq, List.drop_zero]
    refine ⟨by rw [hdp]; simp, by intro h0; simp at h0, ?_⟩
    intro tr htr
    rw [hdp] at htr
    injection htr with htr
    rw [← htr]
    exact polygonTrace_length _ _ _

/-- C10 witness: the empty list yields `none`; a one-vertex list succeeds
with two emitted entries. -/
theorem c10_witness :
    (DrawPolygon [] ⟨1, 1, 1, 1⟩).isSome = false ∧
    ∃ tr, DrawPolygon [⟨2, 3⟩] ⟨1, 1, 1, 1⟩ = some tr ∧ tr.length = 2 := by
  constructor
  · have h := (c10_drawPolygon_totality [] ⟨1, 1, 1, 1⟩).1
    by_contra hb
    simp only [Bool.not_eq_false] at hb
    have := h.mp hb
    simp at this
  · have h := c10_drawPolygon_totality [⟨2, 3⟩] ⟨1, 1, 1, 1⟩
    have hs : (DrawPolygon [⟨2, 3⟩] ⟨1, 1, 1, 1⟩).isSome := h.1.mpr (by simp)
    obtain ⟨tr, htr⟩ := Option.isSome_iff_exists.mp hs
    exact ⟨tr, htr, by rw [h.2.2 tr htr]; rfl⟩

theorem fanTrace_length (fc : Color) (v0 vi : Vec2) (l : List Vec2) :
    (fanTrace fc v0 vi l).length = 3 * l.length := by
  induction l generalizing vi with
  | nil => rfl
  | cons vj rest ih =>
    simp only [fanTrace, List.length_cons, ih vj]
    omega

theorem fanTrace_get (fc : Color) (v0 vi : Vec2) (l : List Vec2) (j : Nat)
    (h : j < l.length) :
    (fanTrace fc v0 vi l).get? (3 * j) = some (v0, fc) ∧
    ((fanTrace fc v0 vi l).get? (3 * j + 1)).map Prod.fst = (vi :: l).get? j ∧
    ((fanTrace fc v0 vi l).get? (3 * j + 2)).map Prod.fst = l.get? j := by
  induction l generalizing vi j with
  | nil => exact absurd h (by simp)
  | cons vj rest ih =>
    cases j with
    | zero => exact ⟨rfl, rfl, rfl⟩
    | succ n =>
      have hn : n < rest.length := by
        simp only [List.length_cons] at h
        omega
      have e1 : 3 * (n + 1) = 3 * n + 1 + 1 + 1 := by ring
      have e2 : 3 * (n + 1) + 1 = 3 * n + 1 + 1 + 1 + 1 := by ring
      have e3 : 3 * (n + 1) + 2 = 3 * n + 2 + 1 + 1 + 1 := by ring
      refine ⟨?_, ?_, ?_⟩
      · rw [e1]
        simp only [fanTrace, List.get?_cons_succ]
        exact (ih vj n hn).1
      · rw [e2]
        simp only [fanTrace, List.get?_cons_succ]
        exact (ih vj n hn).2.1
      · rw [e3]
        simp only [fanTrace, List.get?_cons_succ]
        exact (ih vj n hn).2.2

theorem fanTriLoop_eq (vs : List Vec2) (fc : Color) (v0 : Vec2)
    (h0 : vs.get? 0 = some v0) (i : Nat) (hi : 1 ≤ i) :
    fanTriLoop vs fc i = some (fanTraceFrom fc v0 (vs.drop i)) := by
  rw [fanTriLoop]
  by_cases h : i < vs.length - 1
  · rw [dif_pos h]
    have hiL : i < vs.length := by omega
    have hi1 : i + 1 < vs.length := by omega
    have h0L : 0 < vs.length := by omega
    have hr0 : readVec vs 0 = some v0 := by
      unfold readVec
      rw [if_neg (by omega : ¬ (0 : Int) < 0)]
      exact h0
    have hri : readVec vs (i : Int) = some (vs.get ⟨i, hiL⟩) :=
      readVec_eq_get vs i hiL
    have hri1 : readVec vs ((i : Int) + 1) = some (vs.get ⟨i + 1, hi1⟩) := by
      rw [show ((i : Int) + 1) = (((i + 1 : Nat)) : Int) from by omega]
      exact readVec_eq_get vs (i + 1) hi1
    rw [hr0, hri, hri1]
    show (fanTriLoop vs fc (i + 1)).map
        (fun rest => (v0, fc) :: (vs.get ⟨i, hiL⟩, fc) ::
          (vs.get ⟨i + 1, hi1⟩, fc) :: rest)
      = some (fanTraceFrom fc v0 (vs.drop i))
    rw [fanTriLoop_eq vs fc v0 h0 (i + 1) (by omega), Option.map_some']
    rw [List.drop_eq_getElem_cons hiL, List.drop_eq_getElem_cons hi1]
    rfl
  · rw [dif_neg h]
    have hlen : (vs.drop i).length ≤ 1 := by
      rw [List.length_drop]
      omega
    rcases hd : vs.drop i with _ | ⟨x, rest⟩
    · rfl
    · rw [hd] at hlen
      have hrest : rest = [] := by
        simp only [List.length_cons] at hlen
        exact List.eq_nil_of_length_eq_zero (by omega)
      rw [hrest]
      rfl
termination_by vs.length - i
decreasing_by omega

/-- C7: for every vertex list with at least three vertices and either
debug-flag value, `DrawSolidPolygon` emits exactly `N - 2` triangles,
i.e. `3 * (N - 2)` entries into the triangle batch, fan-triangulated from
`vertex[0]`: for `i` from `1` to `N - 2`, the `i`-th triangle is
`(vertex[0], vertex[i], vertex[i+1])`. -/
theorem c7_drawSolidPolygon_fan (debugMode : Bool) (vs : List Vec2)
    (color : Color) (h : 3 ≤ vs.length) :
    ∃ tris lines, DrawSolidPolygon debugMode vs color = some (tris, lines) ∧
      tris.length = 3 * (vs.length - 2) ∧
      (∀ i, 1 ≤ i → i ≤ vs.length - 2 →
        (tris.get? (3 * (i - 1))).map Prod.fst = vs.get? 0 ∧
        (tris.get? (3 * (i - 1) + 1)).map Prod.fst = vs.get? i ∧
        (tris.get? (3 * (i - 1) + 2)).map Prod.fst = vs.get? (i + 1)) := by
  rcases vs with _ | ⟨v0, vs₁⟩
  · simp at h
  rcases vs₁ with _ | ⟨v1, rest⟩
  · simp at h
  set fc := polygonFillColor debugMode color with hfc
  have htris : fanTriLoop (v0 :: v1 :: rest) fc 1
      = some (fanTrace fc v0 v1 rest) := by
    rw [fanTriLoop_eq (v0 :: v1 :: rest) fc v0 rfl 1 le_rfl]
    rfl
  have hmain : ∀ i, 1 ≤ i → i ≤ (v0 :: v1 :: rest).length - 2 →
      ((fanTrace fc v0 v1 rest).get? (3 * (i - 1))).map Prod.fst
          = (v0 :: v1 :: rest).get? 0 ∧
      ((fanTrace fc v0 v1 rest).get? (3 * (i - 1) + 1)).map Prod.fst
          = (v0 :: v1 :: rest).get? i ∧
      ((fanTrace fc v0 v1 rest).get? (3 * (i - 1) + 2)).map Prod.fst
          = (v0 :: v1 :: rest).get? (i + 1) := by
    intro i h1 h2
    have hj : i - 1 < rest.length := by
      simp only [List.length_cons] at h2
      omega
    have hg := fanTrace_get fc v0 v1 rest (i - 1) hj
    rcases i with _ | n
    · omega
    have hn : n + 1 - 1 = n := rfl
    rw [hn] at hg ⊢
    refine ⟨?_, ?_, ?_⟩
    · rw [hg.1]
      rfl
    · rw [hg.2.1]
      rw [List.get?_cons_succ]
    · rw [hg.2.2]
      rw [show (n + 1 + 1) = n + 2 from rfl, List.get?_cons_succ,
        List.get?_cons_succ]
  have hlen : (fanTrace fc v0 v1 rest).length
      = 3 * ((v0 :: v1 :: rest).length - 2) := by
    rw [fanTrace_length]
    simp only [List.length_cons]
    omega
  cases debugMode with
  | false =>
    refine ⟨fanTrace fc v0 v1 rest, [], ?_, hlen, hmain⟩
    unfold DrawSolidPolygon
    rw [← hfc, htris]
    rfl
  | true =>
    have hlt : (v0 :: v1 :: rest).length - 1 < (v0 :: v1 :: rest).length := by
      simp only [List.length_cons]
      omega
    have hlast : readVec (v0 :: v1 :: rest) ((((v0 :: v1 :: rest).length : Int)) - 1)
        = some ((v0 :: v1 :: rest).get ⟨(v0 :: v1 :: rest).length - 1, hlt⟩) := by
      rw [show ((((v0 :: v1 :: rest).length : Int)) - 1)
          = (((v0 :: v1 :: rest).length - 1 : Nat) : Int) from by
            simp only [List.length_cons]; omega]
      exact readVec_eq_get _ _ hlt
    refine ⟨fanTrace fc v0 v1 rest,
      polygonTrace color
        ((v0 :: v1 :: rest).get ⟨(v0 :: v1 :: rest).length - 1, hlt⟩)
        (v0 :: v1 :: rest), ?_, hlen, hmain⟩
    unfold DrawSolidPolygon
    rw [← hfc, htris]
    show (match readVec (v0 :: v1 :: rest) ((((v0 :: v1 :: rest).length : Int)) - 1) with
      | none => none
      | some p1 =>
        (drawPolygonLoop (v0 :: v1 :: rest) color 0 p1).map
          (fun lines => (fanTrace fc v0 v1 rest, lines))) = _
    rw [hlast]
    show (drawPolygonLoop (v0 :: v1 :: rest) color 0 _).map
        (fun lines => (fanTrace fc v0 v1 rest, lines)) = _
    rw [drawPolygonLoop_eq, List.drop_zero, Option.map_some']

/-- C7 witness: a concrete square in debug mode emits six triangle-batch
entries (two triangles). -/
theorem c7_witness :
    ∃ tris lines,
      DrawSolidPolygon true [⟨0, 0⟩, ⟨1, 0⟩, ⟨1, 1⟩, ⟨0, 1⟩] ⟨1, 0, 0, 1⟩
        = some (tris, lines) ∧ tris.length = 6 := by
  obtain ⟨tris, lines, h1, h2, _⟩ :=
    c7_drawSolidPolygon_fan true [⟨0, 0⟩, ⟨1, 0⟩, ⟨1, 1⟩, ⟨0, 1⟩] ⟨1, 0, 0, 1⟩
      (by simp)
  exact ⟨tris, lines, h1, by rw [h2]; rfl⟩

theorem circleSegLoop_length (center : Vec2) (radius : ℚ) (color : Color)
    (sinInc cosInc : ℚ) (n : Nat) (r1 v1 : Vec2) :
    (circleSegLoop center radius color sinInc cosInc n r1 v1).length = 2 * n := by
  induction n generalizing r1 v1 with
  | zero => rfl
  | succ m ih =>
    simp only [circleSegLoop, List.length_cons, ih]
    omega

theorem circleTriLoop_length (center : Vec2) (radius : ℚ) (fc : Color)
    (sinInc cosInc : ℚ) (n : Nat) (r1 v1 : Vec2) :
    (circleTriLoop center radius fc sinInc cosInc n r1 v1).length = 3 * n := by
  induction n generalizing r1 v1 with
  | zero => rfl
  | succ m ih =>
    simp only [circleTriLoop, List.length_cons, ih]
    omega

theorem circleTriLoop_color (center : Vec2) (radius : ℚ) (fc : Color)
    (sinInc cosInc : ℚ) (n : Nat) (r1 v1 : Vec2) :
    ∀ e ∈ circleTriLoop center radius fc sinInc cosInc n r1 v1, e.2 = fc := by
  induction n generalizing r1 v1 with
  | zero => intro e he; cases he
  | succ m ih =>
    intro e he
    simp only [circleTriLoop, List.mem_cons] at he
    rcases he with rfl | rfl | rfl | he
    · rfl
    · rfl
    · rfl
    · exact ih _ _ e he

/-- C8: for every center, radius and color (and every value of the
precomputed rotation increment), `DrawCircle` emits exactly 16 segments,
32 entries into the line batch, and `DrawSolidCircle` emits exactly 16
triangles, 48 entries into the triangle batch — the counts never depend
on the radius. -/
theorem c8_circle_fixed_counts (center : Vec2) (radius : ℚ) (axis : Vec2)
    (color : Color) (sinInc cosInc : ℚ) (debugMode : Bool) :
    (DrawCircle center radius color sinInc cosInc).length = 32 ∧
    (DrawSolidCircle debugMode center radius axis color sinInc cosInc).1.length
      = 48 := by
  constructor
  · rw [show DrawCircle center radius color sinInc cosInc
        = circleSegLoop center radius color sinInc cosInc 16 ⟨1, 0⟩
            (vadd center (vsmul radius ⟨1, 0⟩)) from rfl]
    rw [circleSegLoop_length]
  · rw [show (DrawSolidCircle debugMode center radius axis color sinInc cosInc).1
        = circleTriLoop center radius
            ⟨1/2 * color.r, 1/2 * color.g, 1/2 * color.b, 1/2⟩ sinInc cosInc 16
            ⟨cosInc, sinInc⟩ (vadd center (vsmul radius ⟨cosInc, sinInc⟩)) from rfl]
    rw [circleTriLoop_length]

/-- C3 counterexample: with the debug flag clear, `DrawSolidCircle` does
not use the full input color for the fill — the first triangle-batch
entry of a concrete call carries the halved color. -/
theorem c3_nondebug_fill_not_full_color :
    ((DrawSolidCircle false ⟨0, 0⟩ 1 ⟨1, 0⟩ ⟨1, 1, 1, 1⟩ 0 1).1.get? 0).map
        Prod.snd ≠ some (⟨1, 1, 1, 1⟩ : Color) := by
  intro hcontra
  have h1 : ((DrawSolidCircle false ⟨0, 0⟩ 1 ⟨1, 0⟩ ⟨1, 1, 1, 1⟩ 0 1).1.get? 0).map
      Prod.snd = some (⟨1/2 * 1, 1/2 * 1, 1/2 * 1, 1/2⟩ : Color) := rfl
  rw [h1] at hcontra
  injection hcontra with hc
  have hr : (1 : ℚ)/2 * 1 = 1 := congrArg Color.r hc
  norm_num at hr

/-- C3 (amended): `DrawSolidCircle` halves the fill color
unconditionally — every triangle-batch entry carries
`(0.5 r, 0.5 g, 0.5 b, 0.5)` whether or not the debug flag is set (unlike
`DrawSolidPolygon`, which halves only in debug mode); with the flag clear
nothing is emitted to the line batch, and with the flag set the
16-segment wireframe outline plus the radius line from the center to
`center + radius * axis` are emitted to the line batch. -/
theorem c3_solidCircle_fill_always_halved (debugMode : Bool) (center : Vec2)
    (radius : ℚ) (axis : Vec2) (color : Color) (sinInc cosInc : ℚ) :
    (∀ e ∈ (DrawSolidCircle debugMode center radius axis color sinInc cosInc).1,
      e.2 = (⟨1/2 * color.r, 1/2 * color.g, 1/2 * color.b, 1/2⟩ : Color)) ∧
    ((DrawSolidCircle false center radius axis color sinInc cosInc).2 = []) ∧
    ((DrawSolidCircle true center radius axis color sinInc cosInc).2
      = DrawCircle center radius color sinInc cosInc
        ++ [(center, color), (vadd center (vsmul radius axis), color)]) := by
  refine ⟨?_, rfl, rfl⟩
  intro e he
  have h1 : (DrawSolidCircle debugMode center radius axis color sinInc cosInc).1
      = circleTriLoop center radius
          ⟨1/2 * color.r, 1/2 * color.g, 1/2 * color.b, 1/2⟩ sinInc cosInc 16
          ⟨cosInc, sinInc⟩ (vadd center (vsmul radius ⟨cosInc, sinInc⟩)) := rfl
  rw [h1] at he
  exact circleTriLoop_color center radius _ sinInc cosInc 16 _ _ e he

/-- C3 witness: the amended statement evaluated on a concrete debug-mode
call: the line batch receives the outline followed by the radius line. -/
theorem c3_witness :
    (DrawSolidCircle true ⟨0, 0⟩ 1 ⟨0, 1⟩ ⟨1, 0, 0, 1⟩ 0 1).2
      = DrawCircle ⟨0, 0⟩ 1 ⟨1, 0, 0, 1⟩ 0 1
        ++ [(⟨0, 0⟩, ⟨1, 0, 0, 1⟩), (vadd ⟨0, 0⟩ (vsmul 1 ⟨0, 1⟩), ⟨1, 0, 0, 1⟩)] :=
  (c3_solidCircle_fill_always_halved true ⟨0, 0⟩ 1 ⟨0, 1⟩ ⟨1, 0, 0, 1⟩ 0 1).2.2

/-- C9: for a batch with one of the three fixed capacities (512 point
entries, 1024 line entries, 1536 triangle entries) satisfying the
invariant, the invariant `count ≤ capacity` is preserved by `Vertex` and
by `Flush`; a `Vertex` call on a full batch issues exactly one draw call
carrying the old buffer and leaves exactly the one new entry buffered;
`Flush` on a non-empty batch uploads the buffer as one draw call and
resets the count to zero; and `Flush` on an empty batch is a no-op. -/
theorem c9_batch_invariant_autoflush {E : Type} (batch : Batch E) (e : E)
    (hcap : batch.cap = pointsMaxVertices ∨ batch.cap = linesMaxVertices ∨
      batch.cap = trianglesMaxVertices)
    (hinv : batch.buf.length ≤ batch.cap) :
    ((batch.Vertex e).buf.length ≤ batch.cap ∧
      batch.Flush.buf.length ≤ batch.cap) ∧
    (batch.buf.length = batch.cap →
      (batch.Vertex e).drawCalls = batch.drawCalls ++ [batch.buf] ∧
      (batch.Vertex e).buf = [e]) ∧
    (batch.buf.length ≠ 0 →
      batch.Flush.buf = [] ∧
      batch.Flush.drawCalls = batch.drawCalls ++ [batch.buf]) ∧
    (batch.buf.length = 0 → batch.Flush = batch) := by
  have hpos : 0 < batch.cap := by
    rcases hcap with hc | hc | hc <;> rw [hc] <;>
      simp [pointsMaxVertices, linesMaxVertices, trianglesMaxVertices]
  have hFlushEmpty : batch.buf.length = 0 → batch.Flush = batch := by
    intro hz
    unfold Batch.Flush
    rw [if_pos hz]
  have hFlushNe : batch.buf.length ≠ 0 →
      batch.Flush.buf = [] ∧
      batch.Flush.drawCalls = batch.drawCalls ++ [batch.buf] := by
    intro hz
    unfold Batch.Flush
    rw [if_neg hz]
    exact ⟨rfl, rfl⟩
  have hVFull : batch.buf.length = batch.cap →
      (batch.Vertex e).drawCalls = batch.drawCalls ++ [batch.buf] ∧
      (batch.Vertex e).buf = [e] := by
    intro hfull
    have hnz : batch.buf.length ≠ 0 := by omega
    obtain ⟨hb, hd⟩ := hFlushNe hnz
    unfold Batch.Vertex
    rw [if_pos hfull]
    constructor
    · show batch.Flush.drawCalls = batch.drawCalls ++ [batch.buf]
      exact hd
    · show batch.Flush.buf ++ [e] = [e]
      rw [hb]
      rfl
  refine ⟨⟨?_, ?_⟩, hVFull, hFlushNe, hFlushEmpty⟩
  · by_cases hfull : batch.buf.length = batch.cap
    · rw [(hVFull hfull).2]
      simpa using hpos
    · unfold Batch.Vertex
      rw [if_neg hfull]
      show (batch.buf ++ [e]).length ≤ batch.cap
      rw [List.length_append]
      simp only [List.length_singleton]
      omega
  · by_cases hz : batch.buf.length = 0
    · rw [hFlushEmpty hz]
      exact hinv
    · rw [(hFlushNe hz).1]
      simp

/-- C9 witness: a full point batch (512 entries) auto-flushes on the next
`Vertex` call, issuing one draw call and keeping exactly the new entry. -/
theorem c9_witness :
    ((Batch.mk 512 (List.replicate 512 (0 : Nat)) []).Vertex 7).buf = [7] ∧
    ((Batch.mk 512 (List.replicate 512 (0 : Nat)) []).Vertex 7).drawCalls
      = [] ++ [List.replicate 512 (0 : Nat)] := by
  have hlen : (List.replicate 512 (0 : Nat)).length = 512 := by
    rw [List.length_replicate]
  have h := c9_batch_invariant_autoflush
    (Batch.mk 512 (List.replicate 512 (0 : Nat)) []) 7 (Or.inl rfl)
    (le_of_eq hlen)
  obtain ⟨hd, hb⟩ := h.2.1 hlen
  exact ⟨hb, hd⟩

end Box2D
